import Mathlib

set_option maxRecDepth 8000
set_option exponentiation.threshold 1200

/-!
Verification of the autotrader listing scraper (src/server.js).

The repository file contains three near-duplicate variants of the same
engine, separated by document markers:
  - variant 1 (card-locator mode): lines 1-186, `CARD_SEL`, `scrape`
    with `ensureResults` fallback;
  - variant 2 (link-ascension mode): lines 187-393, `LINK_SEL`,
    `pollForLinks`, `extractFromLink`;
  - variant 3: lines 394-505, a shortened copy of variant 1.
The definitions below are a shallow embedding of variants 1 and 2 (the
claims cite only those).  Pure helpers are translated directly; the
browser interaction of `scrape` is modelled by an explicit environment
recording what the page would have answered at each query point, with
the control flow of the source reproduced over that environment.
-/

/-- `\d` of the JavaScript regexes in `cleanNum` and the title year test
(non-unicode mode): the ASCII digits. -/
def isDigitC (c : Char) : Bool := '0' ≤ c && c ≤ '9'

/-- The character set matched by JavaScript `\s` (and removed by
`String.prototype.trim`): whitespace and line terminators. -/
def jsSpaceChars : List Char :=
  ['\t', '\n', '\x0b', '\x0c', '\r', ' ', ' ', ' ',
   ' ', ' ', ' ', ' ', ' ', ' ',
   ' ', ' ', ' ', ' ', ' ',
   ' ', ' ', ' ', ' ', '　', '﻿']

def jsSpace (c : Char) : Bool := jsSpaceChars.contains c

/-- `s.replace(/[$,]|mi\.?|miles?/gi, "")` from `cleanNum`
(src/server.js line 24).  The scan is left to right; at each position
the alternatives are tried in order and the scan resumes after the
match.  The third alternative `miles?` is unreachable: it can only
match where `mi\.?` already matches, and JavaScript alternation is
leftmost-first, so the replacement removes every `$` and `,`, and every
case-insensitive `mi` together with one directly following `.`.
`isMi` is the case-insensitive test for the two-character sequence
`mi`. -/
def isMi (c d : Char) : Bool := (c = 'm' || c = 'M') && (d = 'i' || d = 'I')

def stripMoney : List Char → List Char
  | [] => []
  | [c] => if c = '$' || c = ',' then [] else [c]
  | [c, d] =>
    if c = '$' || c = ',' then stripMoney [d]
    else if isMi c d then []
    else c :: stripMoney [d]
  | c :: d :: e :: rest =>
    if c = '$' || c = ',' then stripMoney (d :: e :: rest)
    else if isMi c d then
      if e = '.' then stripMoney rest else stripMoney (e :: rest)
    else c :: stripMoney (d :: e :: rest)

/-- `String.prototype.trim`: drop JavaScript whitespace at both ends. -/
def trimJs (l : List Char) : List Char :=
  ((l.dropWhile jsSpace).reverse.dropWhile jsSpace).reverse

/-- The decimal numeral matched by the regex `-?\d+(\.\d+)?` in
`cleanNum`: sign, integer digits, fraction digits. -/
structure NumMatch where
  neg : Bool
  intPart : List Char
  fracPart : List Char
deriving DecidableEq, Repr

/-- Complete the regex match `-?\d+(\.\d+)?` at a position known to
start with a digit: greedy integer digits, then an optional `.` plus at
least one digit. -/
def matchNumAt (l : List Char) (neg : Bool) : NumMatch :=
  let ip := l.takeWhile isDigitC
  let rest := l.dropWhile isDigitC
  match rest with
  | '.' :: r2 =>
    let fp := r2.takeWhile isDigitC
    if fp = [] then ⟨neg, ip, []⟩ else ⟨neg, ip, fp⟩
  | _ => ⟨neg, ip, []⟩

/-- `t.match` with the regex `-?\d+(\.\d+)?`: first match, scanning
left to right.
At a position holding `-` the match needs a digit right after it,
otherwise the scan moves on to the next position (the character after
the `-`). -/
def findNum : List Char → Option NumMatch
  | [] => none
  | c :: rest =>
    if isDigitC c then some (matchNumAt (c :: rest) false)
    else if c = '-' then
      match rest with
      | d :: _ => if isDigitC d then some (matchNumAt rest true) else findNum rest
      | [] => none
    else findNum rest

def digitsVal (l : List Char) : Nat :=
  l.foldl (fun a c => 10 * a + (c.toNat - 48)) 0

/-- Numerator of the exact value of a matched decimal numeral over the
denominator `10 ^ fracPart.length`. -/
def numerVal (m : NumMatch) : Nat :=
  digitsVal m.intPart * 10 ^ m.fracPart.length + digitsVal m.fracPart

/-- Exact rational value of a matched decimal numeral. -/
def numValue (m : NumMatch) : ℚ :=
  let mag : ℚ := mkRat (numerVal m) (10 ^ m.fracPart.length)
  if m.neg then -mag else mag

/-- A JavaScript number as produced by `Number(...)`, abstracted to the
classification the spec talks about: NaN, the two infinities, or a
finite value (kept exact as a rational; rounding to the nearest double
does not change which classification applies). -/
inductive JsNum where
  | nan : JsNum
  | posInf : JsNum
  | negInf : JsNum
  | fin : ℚ → JsNum
deriving DecidableEq, Repr

def JsNum.isNaN : JsNum → Bool
  | .nan => true
  | _ => false

def JsNum.isFinite : JsNum → Bool
  | .fin _ => true
  | _ => false

/-- The smallest magnitude that `Number` rounds to an infinity:
IEEE-754 binary64 round-to-nearest overflows exactly for exact values
of magnitude at least 2^1024 - 2^970 (the midpoint above the largest
finite double, which ties-to-even sends to 2^1024). -/
def jsOverflow : Nat := 2 ^ 1024 - 2 ^ 970

/-- `Number(m[0])` for a string `m[0]` matching the regex
`-?\d+(\.\d+)?`: such a string always converts to a number (never
NaN); it is an infinity exactly when the magnitude of the exact value
reaches the binary64 overflow threshold.  The magnitude comparison
`jsOverflow ≤ numerVal m / 10^k` is performed on the natural-number
numerators to keep it kernel-computable. -/
def jsNumberOfMatch (m : NumMatch) : JsNum :=
  if jsOverflow * 10 ^ m.fracPart.length ≤ numerVal m then
    (if m.neg then .negInf else .posInf)
  else .fin (numValue m)

/-- `cleanNum` (src/server.js lines 22-27).  The argument is the raw
field text, which in the source may be `null`/`undefined` (modelled as
`none`); `if (!s) return null` also sends the empty string to null. -/
def cleanNum (s : Option String) : Option JsNum :=
  match s with
  | none => none
  | some str =>
    if str = "" then none
    else
      let t := trimJs (stripMoney str.data)
      match findNum t with
      | none => none
      | some m => some (jsNumberOfMatch m)

example : cleanNum (some "$23,500") = some (.fin 23500) := by decide
example : cleanNum (some "45,210 mi.") = some (.fin 45210) := by decide
example : cleanNum (some "Call for Price") = none := by decide
example : cleanNum (some "12 34") = some (.fin 12) := by decide
example : cleanNum (some "-5.25") = some (.fin (mkRat (-21) 4)) := by decide
example : cleanNum (some "62,000 miles") = some (.fin 62000) := by decide

mutual

/-- `title.split(/\s+/)` (src/server.js line 87).  JavaScript `split`
with a regex separator keeps the (possibly empty) fragments between
separator matches, so a leading run of whitespace contributes a leading
empty string and a trailing run a trailing empty string.  The
accumulator `cur` holds the current fragment reversed. -/
def splitWsAux : List Char → List Char → List String
  | [], cur => [String.mk cur.reverse]
  | c :: rest, cur =>
    if jsSpace c then String.mk cur.reverse :: splitWsSkip rest
    else splitWsAux rest (c :: cur)

/-- Skip the remainder of a run of whitespace; a run that reaches the
end of the string still delimits one final (empty) fragment. -/
def splitWsSkip : List Char → List String
  | [] => [""]
  | c :: rest => if jsSpace c then splitWsSkip rest else splitWsAux rest [c]

end

def splitWs (s : String) : List String := splitWsAux s.data []

/-- The regex test `^\d{4}$` applied to the first title token. -/
def isYearTok (s : String) : Bool := s.data.length = 4 && s.data.all isDigitC

/-- JavaScript `x || null` for a field that may be an absent (`none`)
or empty string: both collapse to null. -/
def orNull (x : Option String) : Option String :=
  match x with
  | none => none
  | some s => if s = "" then none else some s

/-- `parts.slice(3).join(" ")`: join with a single space (empty list
joins to the empty string). -/
def joinSpace : List String → String
  | [] => ""
  | [s] => s
  | s :: rest => s ++ " " ++ joinSpace rest

/-- The year/make/model/trim derivation shared by `extractCard`
(src/server.js lines 85-94) and `extractFromLink` (lines 287-300):
split the title on whitespace; when the first fragment is exactly four
digits, assign positionally, sending absent or empty fragments to
null. -/
def decomposeParts : List String →
    Option String × Option String × Option String × Option String
  | [] => (none, none, none, none)
  | p0 :: rest =>
    if isYearTok p0 then
      (some p0, orNull (rest.get? 0), orNull (rest.get? 1),
        orNull (some (joinSpace (rest.drop 2))))
    else (none, none, none, none)

def decomposeTitle (t : String) :
    Option String × Option String × Option String × Option String :=
  decomposeParts (splitWs t)

example : decomposeTitle "2021 Honda Civic EX-L" =
    (some "2021", some "Honda", some "Civic", some "EX-L") := by decide
example : decomposeTitle "Great Deal SUV" = (none, none, none, none) := by decide
example : decomposeTitle "2021 Honda Civic" =
    (some "2021", some "Honda", some "Civic", none) := by decide
example : decomposeTitle "2021" = (some "2021", none, none, none) := by decide
example : decomposeTitle "2019 Ford F-150 Lariat SuperCrew" =
    (some "2019", some "Ford", some "F-150", some "Lariat SuperCrew") := by decide

/-- The href rewrite shared by `extractCard` (src/server.js lines
78-83) and `extractFromLink` (lines 284-285): a root-relative href is
prefixed with the site origin, anything else passes through. -/
def absolutize (h : String) : String :=
  if h.data.head? = some '/' then "https://www.autotrader.com" ++ h else h

/-- One extracted listing (the object literal returned by
`extractCard` and `extractFromLink`). -/
structure ListingRecord where
  source_url : String
  title : Option String
  year : Option String
  make : Option String
  model : Option String
  trim : Option String
  price_raw : Option String
  price_num : Option JsNum
  mileage_raw : Option String
  mileage_num : Option JsNum
  dealer : Option String
  deal_badge : Option String
  sponsored : Bool
  link : Option String
deriving DecidableEq, Repr

/-- The raw answers the page gives to one card's field queries in
`extractCard` (src/server.js lines 56-103).  Each `Option String` field
is the net result of the corresponding selector-fallback chain of
`getText` calls (already trimmed by `textContent()?.trim()`); `none`
is a missing element or null text.  `sponsoredMarker` records whether
`card.$` found a Sponsored / Sponsored-by element; `href` is the
`getAttribute("href")` of the vehicle-detail anchor, `none` when the
anchor is missing or the attribute is null. -/
structure CardData where
  sponsoredMarker : Bool
  title : Option String
  price_raw : Option String
  mileage_raw : Option String
  dealer : Option String
  deal_badge : Option String
  href : Option String
deriving DecidableEq, Repr

/-- `extractCard` (src/server.js lines 56-103). -/
def extractCard (c : CardData) (sourceUrl : String) : ListingRecord :=
  let link := c.href.map absolutize
  let ymmt :=
    match c.title with
    | some t => if t = "" then (none, none, none, none) else decomposeTitle t
    | none => (none, none, none, none)
  { source_url := sourceUrl
    title := c.title
    year := ymmt.1
    make := ymmt.2.1
    model := ymmt.2.2.1
    trim := ymmt.2.2.2
    price_raw := c.price_raw
    price_num := cleanNum c.price_raw
    mileage_raw := c.mileage_raw
    mileage_num := cleanNum c.mileage_raw
    dealer := c.dealer
    deal_badge := c.deal_badge
    sponsored := c.sponsoredMarker
    link := link }

/-- The raw answers the page gives for one item-detail anchor in
`extractFromLink` (src/server.js lines 243-318).  `href` is the
anchor's href attribute, guaranteed present by the locator selector
`a[href*="/cars-for-sale/vehicle"]`; the other fields are the net
results of the `pickText` fallback chains over the ascended root. -/
structure LinkData where
  href : String
  title : Option String
  price_raw : Option String
  mileage_raw : Option String
  dealer : Option String
  deal_badge : Option String
deriving DecidableEq, Repr

/-- `extractFromLink` (src/server.js lines 243-318).  The sponsored
flag is the literal `false` of line 315; no sponsor marker is
queried in link-ascension mode. -/
def extractFromLink (l : LinkData) (sourceUrl : String) : ListingRecord :=
  let ymmt :=
    match l.title with
    | some t => if t = "" then (none, none, none, none) else decomposeTitle t
    | none => (none, none, none, none)
  { source_url := sourceUrl
    title := l.title
    year := ymmt.1
    make := ymmt.2.1
    model := ymmt.2.2.1
    trim := ymmt.2.2.2
    price_raw := l.price_raw
    price_num := cleanNum l.price_raw
    mileage_raw := l.mileage_raw
    mileage_num := cleanNum l.mileage_raw
    dealer := l.dealer
    deal_badge := l.deal_badge
    sponsored := false
    link := some (absolutize l.href) }

/-- The failure kinds a `scrape` run can terminate with (the thrown
errors of src/server.js): `page.goto` rejecting within its timeout
(line 125, "NavigationFailure" in the spec) and the explicit
`throw new Error("No inventory cards attached after scrolling.")` of
line 138 / line 352 ("NoItemsFound").  No other kind exists in the
code; in particular there is no Blocked kind. -/
inductive ScrapeError where
  | NavigationFailure : ScrapeError
  | NoItemsFound : ScrapeError
deriving DecidableEq, Repr

/-- `ensureResults(page, selector, attempts)` (src/server.js lines
45-54), with the page abstracted to the item count each iteration
would observe: `counts i` is `(await page.$$(selector)).length` at the
i-th poll.  Returns whether a positive count was seen together with
the number of polls performed; the scroll and the 1200 ms pause only
drive the page and are not otherwise observable. -/
def ensureResults (counts : Nat → Nat) : Nat → Nat → Bool × Nat
  | 0, _ => (false, 0)
  | n + 1, i =>
    if 0 < counts i then (true, 1)
    else
      let r := ensureResults counts n (i + 1)
      (r.1, r.2 + 1)

/-- `pollForLinks(page, attempts = 60)` (src/server.js lines 232-241):
the same poll-then-nudge loop as `ensureResults`, over the link
selector, with a 60-attempt bound. -/
def pollForLinks (counts : Nat → Nat) : Bool × Nat :=
  ensureResults counts 60 0

/-- The extraction loop of card-mode `scrape` (src/server.js lines
156-162): for each card extract a row, keep it unless sponsored, and
break once the output has reached the cap (the check runs after the
conditional push). -/
def goCard (url : String) (cap : Nat) : List CardData → List ListingRecord → List ListingRecord
  | [], out => out
  | c :: rest, out =>
    let row := extractCard c url
    let out2 := if row.sponsored = false then out ++ [row] else out
    if cap ≤ out2.length then out2 else goCard url cap rest out2

/-- The extraction loop of link-mode `scrape` (src/server.js lines
363-369): every link yields a row (no filtering), breaking once the
cap is reached. -/
def goLink (url : String) (cap : Nat) : List LinkData → List ListingRecord → List ListingRecord
  | [], out => out
  | l :: rest, out =>
    let out2 := out ++ [extractFromLink l url]
    if cap ≤ out2.length then out2 else goLink url cap rest out2

/-- What the page answers during one card-mode `scrape` run
(src/server.js lines 105-166): whether `page.goto` reaches
domcontentloaded within its timeout; the page's visible text (present
on the real page but consulted by no code path); whether the
45-second `waitForSelector` saw a card attach; the card counts each
`ensureResults` poll would observe; and the card list the final
`page.$$(CARD_SEL)` of the extraction phase returns (after the
reveal loop, which only mutates the page).  The consent clicks and
`waitForLoadState` have their rejections swallowed by the source and
add nothing observable. -/
structure CardEnv where
  gotoOk : Bool
  pageText : String
  firstAttached : Bool
  fallbackCounts : Nat → Nat
  cards : List CardData

/-- Card-mode `scrape(url, cap)` (src/server.js lines 105-166),
returning the run's outcome together with the number of times
`browser.close()` executes on that control path.  The source calls
`browser.close()` once, at line 164, after the extraction loop; the
two `throw` paths (navigation failure at line 125, no items at line
138) propagate out of `scrape` before reaching it, so those paths
perform zero closes. -/
def scrapeCard (env : CardEnv) (url : String) (cap : Nat) :
    Except ScrapeError (List ListingRecord) × Nat :=
  if env.gotoOk = false then (.error .NavigationFailure, 0)
  else if env.firstAttached = false && (ensureResults env.fallbackCounts 25 0).1 = false then
    (.error .NoItemsFound, 0)
  else (.ok (goCard url cap env.cards []), 1)

/-- What the page answers during one link-mode `scrape` run
(src/server.js lines 320-373); fields as in `CardEnv` but over the
link selector, with `pollForLinks` as the fallback poll. -/
structure LinkEnv where
  gotoOk : Bool
  pageText : String
  firstAttached : Bool
  fallbackCounts : Nat → Nat
  links : List LinkData

/-- Link-mode `scrape(url, cap)` (src/server.js lines 320-373):
`browser.close()` sits at line 371, after extraction, and the throw
paths (lines 341, 352) bypass it. -/
def scrapeLink (env : LinkEnv) (url : String) (cap : Nat) :
    Except ScrapeError (List ListingRecord) × Nat :=
  if env.gotoOk = false then (.error .NavigationFailure, 0)
  else if env.firstAttached = false && (pollForLinks env.fallbackCounts).1 = false then
    (.error .NoItemsFound, 0)
  else (.ok (goLink url cap env.links []), 1)

/-- Substring test over character lists (used only to state
claim-side properties such as selector reachability and
challenge-phrase presence). -/
def containsSub (needle hay : List Char) : Bool :=
  hay.tails.any (fun t => needle.isPrefixOf t)

/-- Modelled from the spec: the Challenge Detector of spec section 4.2,
which the repository's code does not contain.  It inspects visible
page text for a small fixed set of phrases, case-insensitively. -/
def specChallengeDetected (text : String) : Bool :=
  let lower := text.data.map Char.toLower
  containsSub "verify you are a human".data lower ||
  containsSub "access denied".data lower ||
  containsSub "unusual traffic".data lower

/-- Claim-side notion of an absolute URL: a scheme-qualified http(s)
URL, as opposed to any form of relative reference. -/
def isAbsoluteUrl (s : String) : Bool :=
  "http://".data.isPrefixOf s.data || "https://".data.isPrefixOf s.data

/-- Claim-side notion of the whitespace-delimited tokens of a title:
the non-empty fragments of the whitespace split. -/
def specTokens (t : String) : List String :=
  (splitWs t).filter (fun s => s ≠ "")

/-- The title decomposition as claim C4 words it, over the
whitespace-delimited tokens: if the first token is exactly four
digits, year/make/model get the first three tokens positionally (null
when absent) and trim the remaining tokens joined by a space (null
when there are none); otherwise all four are null. -/
def claimDecomposeParts : List String →
    Option String × Option String × Option String × Option String
  | [] => (none, none, none, none)
  | t0 :: rest =>
    if isYearTok t0 then
      (some t0, rest.get? 0, rest.get? 1,
        if rest.drop 2 = [] then none else some (joinSpace (rest.drop 2)))
    else (none, none, none, none)

def claimDecompose (t : String) :
    Option String × Option String × Option String × Option String :=
  claimDecomposeParts (specTokens t)

/-- The substring the locator selectors require of an href
(`a[href*="/cars-for-sale/vehicle"]`, src/server.js lines 79 and
195). -/
def vehicleHrefSub : String := "/cars-for-sale/vehicle"

/-- Sample organic card used by concrete witnesses. -/
def sampleCard : CardData :=
  ⟨false, some "2021 Honda Civic EX-L", some "$23,500", some "45,210 mi.",
    some "Joe Motors", some "Great Price", some "/cars-for-sale/vehicle/123"⟩

/-- Sample sponsored card used by concrete witnesses. -/
def sponsoredCard : CardData :=
  ⟨true, some "2019 Ford F-150 Lariat", some "$31,450", some "62,000 mi.",
    none, none, some "/cars-for-sale/vehicle/456"⟩

/-- Sample item-detail anchor used by concrete witnesses. -/
def sampleLink : LinkData :=
  ⟨"/cars-for-sale/vehicle/123", some "2021 Honda Civic EX-L",
    some "$23,500", some "45,210 mi.", none, none⟩

theorem ensureResults_all_zero (counts : Nat → Nat) (h : ∀ i, counts i = 0) :
    ∀ a i, ensureResults counts a i = (false, a) := by
  intro a
  induction a with
  | zero => intro i; rfl
  | succ n ih =>
    intro i
    simp [ensureResults, h i, ih (i + 1)]

theorem ensureResults_polls_le (counts : Nat → Nat) :
    ∀ a i, (ensureResults counts a i).2 ≤ a := by
  intro a
  induction a with
  | zero => intro i; simp [ensureResults]
  | succ n ih =>
    intro i
    by_cases h : 0 < counts i
    · simp [ensureResults, h]
    · simp only [ensureResults, if_neg h]
      have := ih (i + 1)
      omega


theorem goCard_length_le (url : String) (cap : Nat) :
    ∀ (cards : List CardData) (out : List ListingRecord),
      out.length < cap → (goCard url cap cards out).length ≤ cap := by
  intro cards
  induction cards with
  | nil => intro out h; simp only [goCard]; omega
  | cons c rest ih =>
    intro out h
    simp only [goCard]
    split
    next hs =>
      split
      next hc =>
        simp only [List.length_append, List.length_singleton] at hc ⊢
        omega
      next hc =>
        refine ih _ ?_
        simp only [List.length_append, List.length_singleton] at hc ⊢
        omega
    next hs =>
      split
      next hc => omega
      next hc => exact ih _ h

theorem goCard_append_of_reached (url : String) (cap : Nat) :
    ∀ (cards : List CardData) (out : List ListingRecord) (extra : List CardData),
      out.length < cap → (goCard url cap cards out).length = cap →
      goCard url cap (cards ++ extra) out = goCard url cap cards out := by
  intro cards
  induction cards with
  | nil =>
    intro out extra h hr
    have hr2 : out.length = cap := hr
    omega
  | cons c rest ih =>
    intro out extra h hr
    rw [List.cons_append]
    rw [goCard] at hr ⊢
    conv_rhs => rw [goCard]
    split at hr
    next hs =>
      split at hr
      next hc => simp only [if_pos hs, if_pos hc]
      next hc =>
        simp only [if_pos hs, if_neg hc]
        refine ih _ extra ?_ hr
        simp only [List.length_append, List.length_singleton] at hc ⊢
        omega
    next hs =>
      split at hr
      next hc =>
        have : out.length = cap := by
          have := hr
          omega
        omega
      next hc =>
        simp only [if_neg hs, if_neg hc]
        exact ih _ extra h hr

theorem goCard_sponsored_false (url : String) (cap : Nat) :
    ∀ (cards : List CardData) (out : List ListingRecord),
      (∀ r ∈ out, r.sponsored = false) →
      ∀ r ∈ goCard url cap cards out, r.sponsored = false := by
  intro cards
  induction cards with
  | nil => intro out hout; exact hout
  | cons c rest ih =>
    intro out hout
    simp only [goCard]
    split
    next hs =>
      have hout2 : ∀ r ∈ out ++ [extractCard c url], r.sponsored = false := by
        intro r hr
        rcases List.mem_append.mp hr with h1 | h1
        · exact hout r h1
        · rcases List.mem_singleton.mp h1 with rfl
          exact hs
      split
      next hc => exact hout2
      next hc => exact ih _ hout2
    next hs =>
      split
      next hc => exact hout
      next hc => exact ih _ hout

theorem goCard_all_sponsored (url : String) (cap : Nat) :
    ∀ (cards : List CardData),
      (∀ c ∈ cards, (extractCard c url).sponsored = true) →
      goCard url cap cards [] = [] := by
  intro cards
  induction cards with
  | nil => intro h; rfl
  | cons c rest ih =>
    intro h
    have hc := h c (List.mem_cons_self c rest)
    simp only [goCard, hc]
    split
    next hs => simp at hs
    next hs =>
      split
      next hcap => rfl
      next hcap => exact ih (fun x hx => h x (List.mem_cons_of_mem c hx))

theorem goLink_sponsored_false (url : String) (cap : Nat) :
    ∀ (links : List LinkData) (out : List ListingRecord),
      (∀ r ∈ out, r.sponsored = false) →
      ∀ r ∈ goLink url cap links out, r.sponsored = false := by
  intro links
  induction links with
  | nil => intro out hout; exact hout
  | cons l rest ih =>
    intro out hout
    have hout2 : ∀ r ∈ out ++ [extractFromLink l url], r.sponsored = false := by
      intro r hr
      rcases List.mem_append.mp hr with h1 | h1
      · exact hout r h1
      · rcases List.mem_singleton.mp h1 with rfl
        rfl
    simp only [goLink]
    split
    next hc => exact hout2
    next hc => exact ih _ hout2

theorem goLink_length_eq (url : String) (cap : Nat) :
    ∀ (links : List LinkData) (out : List ListingRecord),
      out.length < cap →
      (goLink url cap links out).length = min (out.length + links.length) cap := by
  intro links
  induction links with
  | nil =>
    intro out h
    have : goLink url cap [] out = out := rfl
    rw [this]
    simp only [List.length_nil]
    omega
  | cons l rest ih =>
    intro out h
    simp only [goLink]
    split
    next hc =>
      simp only [List.length_append, List.length_singleton, List.length_cons,
        List.length_nil] at hc ⊢
      omega
    next hc =>
      rw [ih _ (by
        simp only [List.length_append, List.length_singleton, List.length_cons,
          List.length_nil] at hc ⊢
        omega)]
      simp only [List.length_append, List.length_singleton, List.length_cons,
        List.length_nil]
      omega

theorem goLink_append_of_reached (url : String) (cap : Nat) :
    ∀ (links : List LinkData) (out : List ListingRecord) (extra : List LinkData),
      out.length < cap → (goLink url cap links out).length = cap →
      goLink url cap (links ++ extra) out = goLink url cap links out := by
  intro links
  induction links with
  | nil =>
    intro out extra h hr
    have hr2 : out.length = cap := hr
    omega
  | cons l rest ih =>
    intro out extra h hr
    rw [List.cons_append]
    rw [goLink] at hr ⊢
    conv_rhs => rw [goLink]
    split at hr
    next hc => simp only [if_pos hc]
    next hc =>
      simp only [if_neg hc]
      refine ih _ extra ?_ hr
      simp only [List.length_append, List.length_singleton] at hc ⊢
      omega

/-- C1 (code bug): src/server.js reaches `browser.close()` (line 164 in
card mode, line 371 in link mode) only after a successful extraction;
the navigation-failure and no-items throw paths leave `scrape` by
exception before the close, so on those exits the close count is zero,
not one.  The last conjunct shows the success path closes exactly
once. -/
theorem scrape_close_missed_on_failure :
    (scrapeCard ⟨false, "", false, fun _ => 0, []⟩ "u" 800).1 =
      .error .NavigationFailure ∧
    (scrapeCard ⟨false, "", false, fun _ => 0, []⟩ "u" 800).2 = 0 ∧
    (scrapeCard ⟨true, "", false, fun _ => 0, []⟩ "u" 800).1 =
      .error .NoItemsFound ∧
    (scrapeCard ⟨true, "", false, fun _ => 0, []⟩ "u" 800).2 = 0 ∧
    (scrapeLink ⟨false, "", false, fun _ => 0, []⟩ "u" 800).1 =
      .error .NavigationFailure ∧
    (scrapeLink ⟨false, "", false, fun _ => 0, []⟩ "u" 800).2 = 0 ∧
    (scrapeCard ⟨true, "", true, fun _ => 0, [sampleCard]⟩ "u" 800).2 = 1 :=
  ⟨rfl, rfl, rfl, rfl, rfl, rfl, rfl⟩

/-- Card used by the C2 counterexample: an ordinary listing present on
a page whose visible text announces a bot-verification challenge. -/
def challengeCard : CardData :=
  ⟨false, some "2019 Ford F-150 Lariat", some "$31,450", some "62,000 mi.",
    none, none, some "/cars-for-sale/vehicle/777"⟩

/-- Page state for the C2 counterexample: the visible text matches the
challenge-detector phrases of spec section 4.2, yet a card is attached. -/
def blockedEnv : CardEnv :=
  ⟨true, "Access denied: please verify you are a human.", true, fun _ => 0,
    [challengeCard]⟩

/-- C2 counterexample: on a page whose visible text the spec's
Challenge Detector flags as a block, the crawl nevertheless returns a
`ListingRecord` and succeeds — the code never consults the page text
and has no Blocked failure kind, so the claimed behaviour (no record
ever returned, result exclusively a Blocked failure) is false. -/
theorem blocked_page_still_returns_records :
    specChallengeDetected blockedEnv.pageText = true ∧
    (scrapeCard blockedEnv "u" 800).1 = .ok [extractCard challengeCard "u"] ∧
    (extractCard challengeCard "u").title = some "2019 Ford F-150 Lariat" :=
  ⟨by decide, rfl, rfl⟩

/-- C2 amended: no challenge detection occurs anywhere in `scrape`;
the run's outcome is independent of the page's visible text, so a
bot-verification interstitial is never converted into a distinguished
failure (no Blocked kind exists), and pages whose text matches the
spec's challenge phrases are crawled exactly like any other page. -/
theorem scrape_ignores_page_text (g ft : Bool) (fc : Nat → Nat)
    (cs : List CardData) (ls : List LinkData) (t1 t2 url : String) (cap : Nat) :
    scrapeCard ⟨g, t1, ft, fc, cs⟩ url cap = scrapeCard ⟨g, t2, ft, fc, cs⟩ url cap ∧
    scrapeLink ⟨g, t1, ft, fc, ls⟩ url cap = scrapeLink ⟨g, t2, ft, fc, ls⟩ url cap :=
  ⟨rfl, rfl⟩

/-- C9: when the first-attachment wait fails and every fallback poll
observes zero items, the run fails with the no-items error; the
fallback loop performs a bounded number of polls (at most its attempt
argument, 25 here), never an unbounded amount. -/
theorem noItemsFound_after_bounded_polls
    (counts : Nat → Nat) (pt : String) (cards : List CardData)
    (url : String) (cap : Nat) (hzero : ∀ i, counts i = 0) :
    (scrapeCard ⟨true, pt, false, counts, cards⟩ url cap).1 =
      .error .NoItemsFound ∧
    ensureResults counts 25 0 = (false, 25) ∧
    (∀ (cs : Nat → Nat) (a i : Nat), (ensureResults cs a i).2 ≤ a) := by
  have hz := ensureResults_all_zero counts hzero 25 0
  refine ⟨?_, hz, fun cs a i => ensureResults_polls_le cs a i⟩
  simp [scrapeCard, hz]

/-- Witness for C9 at a concrete environment. -/
theorem noItemsFound_after_bounded_polls_witness :
    (scrapeCard ⟨true, "", false, fun _ => 0, []⟩ "u" 800).1 =
      .error .NoItemsFound ∧
    ensureResults (fun _ => 0) 25 0 = (false, 25) :=
  ⟨(noItemsFound_after_bounded_polls (fun _ => 0) "" [] "u" 800 (fun _ => rfl)).1,
   (noItemsFound_after_bounded_polls (fun _ => 0) "" [] "u" 800 (fun _ => rfl)).2.1⟩

/-- C6: with a positive cap, a successful crawl in either mode returns
at most `cap` records, and both extraction loops ignore any further
discoverable items once the output has reached the cap. -/
theorem cap_bound (cenv : CardEnv) (lenv : LinkEnv) (url : String) (cap : Nat)
    (hcap : 1 ≤ cap) :
    (∀ out, (scrapeCard cenv url cap).1 = .ok out → out.length ≤ cap) ∧
    (∀ out, (scrapeLink lenv url cap).1 = .ok out → out.length ≤ cap) ∧
    (∀ (cards extra : List CardData), (goCard url cap cards []).length = cap →
        goCard url cap (cards ++ extra) [] = goCard url cap cards []) ∧
    (∀ (links extra : List LinkData), (goLink url cap links []).length = cap →
        goLink url cap (links ++ extra) [] = goLink url cap links []) := by
  refine ⟨?_, ?_, ?_, ?_⟩
  · intro out hout
    unfold scrapeCard at hout
    split at hout
    · simp at hout
    · split at hout
      · simp at hout
      · have h2 : goCard url cap cenv.cards [] = out := by simpa using hout
        subst h2
        exact goCard_length_le url cap _ [] (by simp; omega)
  · intro out hout
    unfold scrapeLink at hout
    split at hout
    · simp at hout
    · split at hout
      · simp at hout
      · have h2 : goLink url cap lenv.links [] = out := by simpa using hout
        subst h2
        have := goLink_length_eq url cap lenv.links [] (by simp; omega)
        omega
  · intro cards extra hr
    exact goCard_append_of_reached url cap cards [] extra (by simp; omega) hr
  · intro links extra hr
    exact goLink_append_of_reached url cap links [] extra (by simp; omega) hr

/-- Witness for C6 at cap 1 with two discoverable cards. -/
theorem cap_bound_witness :
    (goCard "u" 1 [sampleCard, sponsoredCard] []).length ≤ 1 ∧
    goCard "u" 1 ([sampleCard] ++ [sponsoredCard]) [] = goCard "u" 1 [sampleCard] [] := by
  have h := cap_bound ⟨true, "", true, fun _ => 0, [sampleCard, sponsoredCard]⟩
      ⟨true, "", true, fun _ => 0, []⟩ "u" 1 (by decide)
  exact ⟨h.1 _ rfl, h.2.2.1 [sampleCard] [sponsoredCard] (by decide)⟩

/-- C7: in card mode no returned record is sponsored and all-sponsored
card lists contribute nothing (they do not consume the cap); in link
mode nothing is filtered — with a positive cap the output length is
exactly `min links.length cap` — and the sponsored flag is always
reported false. -/
theorem sponsored_filtering (url : String) (cap : Nat)
    (cards : List CardData) (links : List LinkData) (hcap : 1 ≤ cap) :
    (∀ r ∈ goCard url cap cards [], r.sponsored = false) ∧
    ((∀ c ∈ cards, (extractCard c url).sponsored = true) →
        goCard url cap cards [] = []) ∧
    (∀ r ∈ goLink url cap links [], r.sponsored = false) ∧
    (goLink url cap links []).length = min links.length cap := by
  refine ⟨goCard_sponsored_false url cap cards [] (by simp),
          goCard_all_sponsored url cap cards,
          goLink_sponsored_false url cap links [] (by simp), ?_⟩
  have := goLink_length_eq url cap links [] (by simp only [List.length_nil]; omega)
  simpa using this

/-- Witness for C7 at cap 5. -/
theorem sponsored_filtering_witness :
    (∀ r ∈ goCard "u" 5 [sponsoredCard, sampleCard] [], r.sponsored = false) ∧
    goCard "u" 5 [sponsoredCard] [] = [] ∧
    (goLink "u" 5 [sampleLink] []).length = min 1 5 := by
  have h1 := sponsored_filtering "u" 5 [sponsoredCard, sampleCard] [sampleLink] (by decide)
  have h2 := sponsored_filtering "u" 5 [sponsoredCard] [sampleLink] (by decide)
  refine ⟨h1.1, h2.2.1 ?_, by simpa using h1.2.2.2⟩
  intro c hc
  rcases List.mem_singleton.mp hc with rfl
  rfl

/-- A string-valued field that is either null or a non-empty string
(claim C10's invariant). -/
def nonEmptyOpt (o : Option String) : Prop :=
  o = none ∨ ∃ s, o = some s ∧ s ≠ ""

theorem orNull_nonEmpty (x : Option String) : nonEmptyOpt (orNull x) := by
  match x with
  | none => exact Or.inl rfl
  | some s =>
    by_cases h : s = ""
    · exact Or.inl (by simp [orNull, h])
    · exact Or.inr ⟨s, by simp [orNull, h], h⟩

theorem isYearTok_ne_empty (s : String) (h : isYearTok s = true) : s ≠ "" := by
  intro h0
  subst h0
  simp [isYearTok] at h

theorem decomposeTitle_fields (t : String) :
    nonEmptyOpt (decomposeTitle t).1 ∧ nonEmptyOpt (decomposeTitle t).2.1 ∧
    nonEmptyOpt (decomposeTitle t).2.2.1 ∧ nonEmptyOpt (decomposeTitle t).2.2.2 := by
  unfold decomposeTitle
  match splitWs t with
  | [] => exact ⟨Or.inl rfl, Or.inl rfl, Or.inl rfl, Or.inl rfl⟩
  | p0 :: rest =>
    by_cases hy : isYearTok p0 = true
    · simp only [decomposeParts, if_pos hy]
      exact ⟨Or.inr ⟨p0, rfl, isYearTok_ne_empty p0 hy⟩,
        orNull_nonEmpty _, orNull_nonEmpty _, orNull_nonEmpty _⟩
    · simp only [decomposeParts, if_neg hy]
      exact ⟨Or.inl rfl, Or.inl rfl, Or.inl rfl, Or.inl rfl⟩

/-- C10: the derived fields year/make/model/trim of every extracted
record, in both locator modes, are each either null or a non-empty
string, never the empty string; a three-token year title yields a null
(not empty) trim and a one-token year title yields null make and
model. -/
theorem derived_fields_never_empty (c : CardData) (l : LinkData) (url : String) :
    (nonEmptyOpt (extractCard c url).year ∧ nonEmptyOpt (extractCard c url).make ∧
     nonEmptyOpt (extractCard c url).model ∧ nonEmptyOpt (extractCard c url).trim) ∧
    (nonEmptyOpt (extractFromLink l url).year ∧ nonEmptyOpt (extractFromLink l url).make ∧
     nonEmptyOpt (extractFromLink l url).model ∧ nonEmptyOpt (extractFromLink l url).trim) ∧
    decomposeTitle "2021 Honda Civic" = (some "2021", some "Honda", some "Civic", none) ∧
    decomposeTitle "2021" = (some "2021", none, none, none) := by
  refine ⟨?_, ?_, by decide, by decide⟩
  · cases ct : c.title with
    | none => simp [extractCard, ct, nonEmptyOpt]
    | some t =>
      by_cases ht : t = ""
      · simp [extractCard, ct, ht, nonEmptyOpt]
      · simpa [extractCard, ct, ht] using decomposeTitle_fields t
  · cases ct : l.title with
    | none => simp [extractFromLink, ct, nonEmptyOpt]
    | some t =>
      by_cases ht : t = ""
      · simp [extractFromLink, ct, ht, nonEmptyOpt]
      · simpa [extractFromLink, ct, ht] using decomposeTitle_fields t

/-- C8 counterexample: an href that is relative but not root-relative
(it does not start with `/`) still matches the locator selector (it
contains the vehicle-path substring), passes through the rewrite
unchanged, and the resulting record link is not an absolute URL. -/
theorem relative_href_not_rewritten :
    containsSub vehicleHrefSub.data "./cars-for-sale/vehicle/123".data = true ∧
    (extractFromLink ⟨"./cars-for-sale/vehicle/123", none, none, none, none, none⟩
        "u").link = some "./cars-for-sale/vehicle/123" ∧
    isAbsoluteUrl "./cars-for-sale/vehicle/123" = false :=
  ⟨by decide, rfl, by decide⟩

/-- C8 amended: hrefs that are already scheme-absolute pass through
the rewrite unchanged, and every root-relative href (leading `/`) is
rewritten against the site origin into an absolute URL; hrefs that do
not start with `/` — including relative references like `./...` — are
left untouched. -/
theorem absolutize_spec (h : String) :
    (isAbsoluteUrl h = true → absolutize h = h) ∧
    (h.data.head? = some '/' →
      absolutize h = "https://www.autotrader.com" ++ h ∧
      isAbsoluteUrl (absolutize h) = true) ∧
    (h.data.head? ≠ some '/' → absolutize h = h) := by
  have hpre1 : ∀ (r : List Char), List.isPrefixOf "http://".data ('/' :: r) = false :=
    fun r => rfl
  have hpre2 : ∀ (r : List Char), List.isPrefixOf "https://".data ('/' :: r) = false :=
    fun r => rfl
  refine ⟨?_, ?_, ?_⟩
  · intro habs
    unfold absolutize
    rw [if_neg]
    intro hc
    rcases hd : h.data with _ | ⟨c, rest⟩
    · rw [hd] at hc; simp at hc
    · rw [hd] at hc
      simp only [List.head?_cons, Option.some.injEq] at hc
      subst hc
      unfold isAbsoluteUrl at habs
      rw [hd, hpre1, hpre2] at habs
      simp at habs
  · intro hc
    constructor
    · simp [absolutize, hc]
    · simp only [absolutize, hc, if_pos rfl]
      rfl
  · intro hc
    simp [absolutize, hc]

/-- Witness for C8's amended statement at concrete hrefs. -/
theorem absolutize_spec_witness :
    absolutize "https://example.com/cars-for-sale/vehicle/9" =
      "https://example.com/cars-for-sale/vehicle/9" ∧
    absolutize "/cars-for-sale/vehicle/123" =
      "https://www.autotrader.com" ++ "/cars-for-sale/vehicle/123" ∧
    isAbsoluteUrl (absolutize "/cars-for-sale/vehicle/123") = true :=
  ⟨(absolutize_spec _).1 (by decide),
   ((absolutize_spec _).2.1 (by decide)).1,
   ((absolutize_spec _).2.1 (by decide)).2⟩

/-- A price string whose numeral (309 nines) exceeds the largest
finite binary64 value, so `Number` parses it to Infinity. -/
def overflowPrice : String := String.mk (List.replicate 309 '9')

/-- C5 counterexample: a raw price string whose numeral has 309 digits
makes `cleanNum` — and hence the record's `price_num` — the JavaScript
value Infinity, which is neither finite nor null, refuting "never a
non-finite value" over all possible raw input strings. -/
theorem price_num_overflow :
    (extractCard ⟨false, none, some overflowPrice, none, none, none, none⟩
        "u").price_num = some JsNum.posInf ∧
    JsNum.posInf.isFinite = false := by
  constructor
  · show cleanNum (some overflowPrice) = some JsNum.posInf
    decide
  · rfl

theorem jsNumberOfMatch_not_nan (m : NumMatch) : (jsNumberOfMatch m).isNaN = false := by
  unfold jsNumberOfMatch
  split
  · split <;> rfl
  · rfl

theorem cleanNum_not_nan (s : Option String) :
    cleanNum s = none ∨ ∃ v, cleanNum s = some v ∧ v.isNaN = false := by
  rcases s with _ | str
  · exact Or.inl rfl
  · by_cases he : str = ""
    · exact Or.inl (by simp [cleanNum, he])
    · rcases hf : findNum (trimJs (stripMoney str.data)) with _ | m
      · exact Or.inl (by simp [cleanNum, he, hf])
      · exact Or.inr ⟨jsNumberOfMatch m, by simp [cleanNum, he, hf],
          jsNumberOfMatch_not_nan m⟩

/-- C5 amended: for every extracted record, in both locator modes,
`price_num` and `mileage_num` are each either null or a number that is
never NaN; the value can fail to be finite only by overflowing to an
infinity, which requires the raw numeral's magnitude to reach the
binary64 overflow threshold 2^1024 - 2^970 (about 1.8e308). -/
theorem price_mileage_never_nan (c : CardData) (l : LinkData) (url : String) :
    ((extractCard c url).price_num = none ∨
      ∃ v, (extractCard c url).price_num = some v ∧ v.isNaN = false) ∧
    ((extractCard c url).mileage_num = none ∨
      ∃ v, (extractCard c url).mileage_num = some v ∧ v.isNaN = false) ∧
    ((extractFromLink l url).price_num = none ∨
      ∃ v, (extractFromLink l url).price_num = some v ∧ v.isNaN = false) ∧
    ((extractFromLink l url).mileage_num = none ∨
      ∃ v, (extractFromLink l url).mileage_num = some v ∧ v.isNaN = false) :=
  ⟨cleanNum_not_nan c.price_raw, cleanNum_not_nan c.mileage_raw,
   cleanNum_not_nan l.price_raw, cleanNum_not_nan l.mileage_raw⟩

theorem dollar_comma_not_digit (c : Char)
    (h : (decide (c = '$') || decide (c = ',')) = true) : isDigitC c = false := by
  rw [Bool.or_eq_true] at h
  rcases h with h | h <;> rw [of_decide_eq_true h] <;> decide

theorem isMi_not_digit (c d : Char) (h : isMi c d = true) :
    isDigitC c = false ∧ isDigitC d = false := by
  unfold isMi at h
  rw [Bool.and_eq_true, Bool.or_eq_true, Bool.or_eq_true] at h
  rcases h with ⟨h1 | h1, h2 | h2⟩ <;>
    rw [of_decide_eq_true h1, of_decide_eq_true h2] <;>
    exact ⟨by decide, by decide⟩

theorem jsSpace_not_digit (c : Char) (h : jsSpace c = true) : isDigitC c = false := by
  have hm : c ∈ jsSpaceChars := by simpa [jsSpace] using h
  fin_cases hm <;> decide


/-- The replacement of `cleanNum` removes only non-digit characters, so
it leaves the presence of a digit unchanged. -/
theorem stripMoney_any_digit (l : List Char) :
    (stripMoney l).any isDigitC = l.any isDigitC := by
  induction l using stripMoney.induct with
  | case1 => rfl
  | case2 c h =>
    have hc := dollar_comma_not_digit c h
    simp only [stripMoney]
    rw [if_pos h]
    simp [hc]
  | case3 c h =>
    simp only [stripMoney]
    rw [if_neg h]
  | case4 c d h ih =>
    have hc := dollar_comma_not_digit c h
    simp only [stripMoney] at ih ⊢
    rw [if_pos h, ih]
    simp [List.any_cons, hc]
  | case5 c d h1 h2 =>
    obtain ⟨hc, hd⟩ := isMi_not_digit c d h2
    simp only [stripMoney]
    rw [if_neg h1, if_pos h2]
    simp [List.any_cons, hc, hd]
  | case6 c d h1 h2 ih =>
    simp only [stripMoney] at ih ⊢
    rw [if_neg h1, if_neg h2]
    simp only [List.any_cons]
    rw [ih]
    simp [List.any_cons]
  | case7 c d e rest h ih =>
    have hc := dollar_comma_not_digit c h
    simp only [stripMoney] at ih ⊢
    rw [if_pos h, ih]
    simp [List.any_cons, hc]
  | case8 c d rest h1 h2 ih =>
    obtain ⟨hc, hd⟩ := isMi_not_digit c d h2
    have hdot : isDigitC '.' = false := by decide
    simp only [stripMoney] at ih ⊢
    rw [if_neg h1, if_pos h2]
    simp only [if_true]
    rw [ih]
    simp [List.any_cons, hc, hd, hdot]
  | case9 c d e rest h1 h2 h3 ih =>
    obtain ⟨hc, hd⟩ := isMi_not_digit c d h2
    simp only [stripMoney] at ih ⊢
    rw [if_neg h1, if_pos h2, if_neg h3, ih]
    simp [List.any_cons, hc, hd]
  | case10 c d e rest h1 h2 ih =>
    simp only [stripMoney] at ih ⊢
    rw [if_neg h1, if_neg h2]
    simp only [List.any_cons]
    rw [ih]
    simp [List.any_cons]

theorem dropWhile_any_digit (l : List Char) :
    (l.dropWhile jsSpace).any isDigitC = l.any isDigitC := by
  induction l with
  | nil => rfl
  | cons c rest ih =>
    rw [List.dropWhile_cons]
    by_cases h : jsSpace c = true
    · rw [if_pos h, ih]
      simp [List.any_cons, jsSpace_not_digit c h]
    · rw [if_neg h]

/-- `trim` removes only whitespace, so it leaves the presence of a
digit unchanged. -/
theorem trimJs_any_digit (l : List Char) :
    (trimJs l).any isDigitC = l.any isDigitC := by
  unfold trimJs
  rw [List.any_reverse, dropWhile_any_digit, List.any_reverse, dropWhile_any_digit]

theorem findNum_cons_digit (c : Char) (rest : List Char) (h : isDigitC c = true) :
    findNum (c :: rest) = some (matchNumAt (c :: rest) false) := by
  simp [findNum, h]

theorem findNum_cons_other (c : Char) (rest : List Char)
    (h1 : isDigitC c = false) (h2 : c ≠ '-') :
    findNum (c :: rest) = findNum rest := by
  simp [findNum, h1, h2]

theorem findNum_minus_digit (d : Char) (rest : List Char) (h : isDigitC d = true) :
    findNum ('-' :: d :: rest) = some (matchNumAt (d :: rest) true) := by
  have hm : isDigitC '-' = false := by decide
  simp [findNum, h, hm]

theorem findNum_minus_other (d : Char) (rest : List Char) (h : isDigitC d = false) :
    findNum ('-' :: d :: rest) = findNum (d :: rest) := by
  have hm : isDigitC '-' = false := by decide
  simp [findNum, h, hm]

/-- The first-numeral scan of `cleanNum` succeeds exactly when the text
contains a digit at all. -/
theorem findNum_isSome (l : List Char) :
    (findNum l).isSome = l.any isDigitC := by
  induction l with
  | nil => rfl
  | cons c rest ih =>
    by_cases hd : isDigitC c = true
    · rw [findNum_cons_digit c rest hd]
      simp [List.any_cons, hd]
    · have hd' : isDigitC c = false := by simpa using hd
      by_cases hm : c = '-'
      · subst hm
        cases rest with
        | nil => rfl
        | cons d r2 =>
          by_cases hd2 : isDigitC d = true
          · rw [findNum_minus_digit d r2 hd2]
            simp [List.any_cons, hd2]
          · have hd2' : isDigitC d = false := by simpa using hd2
            rw [findNum_minus_other d r2 hd2', ih]
            simp [List.any_cons, hd']
      · rw [findNum_cons_other c rest hd' hm, ih]
        simp [List.any_cons, hd']

/-- C3: `cleanNum` returns null on null and empty input; it returns
some number exactly when the input contains a digit (and null — never
zero — when it contains none); on numeral-bearing strings it strips
currency symbols, thousands separators and mileage words and parses
the first signed-or-unsigned decimal number, as the concrete examples
(including the claim's own three) exhibit. -/
theorem cleanNum_spec (s : String) :
    cleanNum none = none ∧
    cleanNum (some "") = none ∧
    (s.data.any isDigitC = true → ∃ v, cleanNum (some s) = some v) ∧
    (s.data.any isDigitC = false → cleanNum (some s) = none) ∧
    cleanNum (some "$23,500") = some (.fin 23500) ∧
    cleanNum (some "45,210 mi.") = some (.fin 45210) ∧
    cleanNum (some "Call for Price") = none ∧
    cleanNum (some "12 34") = some (.fin 12) ∧
    cleanNum (some "-5.25") = some (.fin (mkRat (-21) 4)) := by
  refine ⟨rfl, rfl, ?_, ?_, by decide, by decide, by decide, by decide, by decide⟩
  · intro h
    have he : s ≠ "" := by
      intro h0
      subst h0
      simp at h
    have hf : (findNum (trimJs (stripMoney s.data))).isSome = true := by
      rw [findNum_isSome, trimJs_any_digit, stripMoney_any_digit, h]
    rcases Option.isSome_iff_exists.mp hf with ⟨m, hm⟩
    exact ⟨jsNumberOfMatch m, by simp [cleanNum, he, hm]⟩
  · intro h
    by_cases he : s = ""
    · simp [cleanNum, he]
    · have hf : (findNum (trimJs (stripMoney s.data))).isSome = false := by
        rw [findNum_isSome, trimJs_any_digit, stripMoney_any_digit, h]
      have hn : findNum (trimJs (stripMoney s.data)) = none := by
        rcases hfn : findNum (trimJs (stripMoney s.data)) with _ | m
        · rfl
        · rw [hfn] at hf
          simp at hf
      simp [cleanNum, he, hn]

/-- Witness for C3 at concrete digit-bearing and digit-free strings. -/
theorem cleanNum_spec_witness :
    (∃ v, cleanNum (some "x7y") = some v) ∧
    cleanNum (some "no digits here") = none :=
  ⟨(cleanNum_spec "x7y").2.2.1 (by decide),
   (cleanNum_spec "no digits here").2.2.2.1 (by decide)⟩

/-- A string with no JavaScript whitespace at either end (every title
reaching the decomposition is the result of `textContent()?.trim()`,
so it has this shape). -/
def noEdgeSpaceB (l : List Char) : Bool :=
  (match l.head? with | some c => !jsSpace c | none => true) &&
  (match l.getLast? with | some c => !jsSpace c | none => true)

theorem mk_reverse_ne_empty (cur : List Char) (h : cur ≠ []) :
    String.mk cur.reverse ≠ "" := by
  intro h0
  apply h
  have h1 : cur.reverse = [] := congrArg String.data h0
  simpa using h1

theorem getLast?_cons_of_ne (c : Char) (rest : List Char) (h : rest ≠ []) :
    (c :: rest).getLast? = rest.getLast? := by
  cases rest with
  | nil => exact absurd rfl h
  | cons b l => exact List.getLast?_cons_cons

/-- Under the no-edge-whitespace conditions, every fragment produced by
the whitespace split is non-empty.  Proved jointly for the two mutual
loop functions by strong induction on the input length. -/
theorem splitWs_parts_ne_empty :
    ∀ (n : Nat) (l : List Char), l.length ≤ n →
      ((∀ c, l.getLast? = some c → jsSpace c = false) →
        ∀ (cur : List Char),
          (cur ≠ [] ∨ (l ≠ [] ∧ ∀ c, l.head? = some c → jsSpace c = false)) →
          ∀ x ∈ splitWsAux l cur, x ≠ "") ∧
      ((∀ c, l.getLast? = some c → jsSpace c = false) → l ≠ [] →
        ∀ x ∈ splitWsSkip l, x ≠ "") := by
  intro n
  induction n with
  | zero =>
    intro l hl
    have hnil : l = [] := List.length_eq_zero.mp (Nat.le_zero.mp hl)
    subst hnil
    constructor
    · intro hlast cur hcur x hx
      simp only [splitWsAux, List.mem_singleton] at hx
      subst hx
      rcases hcur with h1 | ⟨h1, _⟩
      · exact mk_reverse_ne_empty cur h1
      · exact absurd rfl h1
    · intro _ hne
      exact absurd rfl hne
  | succ n ihn =>
    intro l hl
    constructor
    · intro hlast cur hcur x hx
      cases l with
      | nil =>
        simp only [splitWsAux, List.mem_singleton] at hx
        subst hx
        rcases hcur with h1 | ⟨h1, _⟩
        · exact mk_reverse_ne_empty cur h1
        · exact absurd rfl h1
      | cons c rest =>
        have hrest : rest.length ≤ n := by
          simp only [List.length_cons] at hl
          omega
        by_cases hs : jsSpace c = true
        · have hcur' : cur ≠ [] := by
            rcases hcur with h1 | ⟨_, hh⟩
            · exact h1
            · have := hh c rfl
              rw [hs] at this
              cases this
          simp only [splitWsAux, if_pos hs] at hx
          rcases List.mem_cons.mp hx with hx1 | hx1
          · subst hx1
            exact mk_reverse_ne_empty cur hcur'
          · have hrne : rest ≠ [] := by
              intro h0
              subst h0
              have := hlast c (List.getLast?_singleton c)
              rw [hs] at this
              cases this
            have hlast' : ∀ c2, rest.getLast? = some c2 → jsSpace c2 = false := by
              intro c2 hc2
              exact hlast c2 (by rw [getLast?_cons_of_ne c rest hrne]; exact hc2)
            exact (ihn rest hrest).2 hlast' hrne x hx1
        · simp only [splitWsAux, if_neg hs] at hx
          have hlast' : ∀ c2, rest.getLast? = some c2 → jsSpace c2 = false := by
            intro c2 hc2
            have hrne : rest ≠ [] := by
              intro h0
              subst h0
              cases hc2
            exact hlast c2 (by rw [getLast?_cons_of_ne c rest hrne]; exact hc2)
          exact (ihn rest hrest).1 hlast' (c :: cur)
            (Or.inl (List.cons_ne_nil c cur)) x hx
    · intro hlast hne x hx
      cases l with
      | nil => exact absurd rfl hne
      | cons c rest =>
        have hrest : rest.length ≤ n := by
          simp only [List.length_cons] at hl
          omega
        by_cases hs : jsSpace c = true
        · simp only [splitWsSkip, if_pos hs] at hx
          have hrne : rest ≠ [] := by
            intro h0
            subst h0
            have := hlast c (List.getLast?_singleton c)
            rw [hs] at this
            cases this
          have hlast' : ∀ c2, rest.getLast? = some c2 → jsSpace c2 = false := by
            intro c2 hc2
            exact hlast c2 (by rw [getLast?_cons_of_ne c rest hrne]; exact hc2)
          exact (ihn rest hrest).2 hlast' hrne x hx
        · simp only [splitWsSkip, if_neg hs] at hx
          have hlast' : ∀ c2, rest.getLast? = some c2 → jsSpace c2 = false := by
            intro c2 hc2
            have hrne : rest ≠ [] := by
              intro h0
              subst h0
              cases hc2
            exact hlast c2 (by rw [getLast?_cons_of_ne c rest hrne]; exact hc2)
          exact (ihn rest hrest).1 hlast' [c]
            (Or.inl (List.cons_ne_nil c [])) x hx

/-- For a title with no whitespace at either end, every split fragment
is non-empty. -/
theorem splitWs_ne_empty_of_trimmed (t : String) (h : noEdgeSpaceB t.data = true)
    (hne : t ≠ "") : ∀ x ∈ splitWs t, x ≠ "" := by
  unfold noEdgeSpaceB at h
  rw [Bool.and_eq_true] at h
  obtain ⟨hh, hl⟩ := h
  have hlast : ∀ c, t.data.getLast? = some c → jsSpace c = false := by
    intro c hc
    rw [hc] at hl
    simpa using hl
  cases hd : t.data with
  | nil =>
    exact absurd (@String.ext t "" (by rw [hd])) hne
  | cons c rest =>
    have hhead : jsSpace c = false := by
      rw [hd] at hh
      simpa using hh
    intro x hx
    unfold splitWs at hx
    rw [hd] at hx
    refine (splitWs_parts_ne_empty (c :: rest).length (c :: rest) le_rfl).1 ?_ []
      (Or.inr ⟨List.cons_ne_nil c rest, ?_⟩) x hx
    · intro c2 hc2
      apply hlast
      rw [hd]
      exact hc2
    · intro c2 hc2
      simp only [List.head?_cons, Option.some.injEq] at hc2
      subst hc2
      exact hhead

theorem joinSpace_ne_empty (a : String) (l : List String) (ha : a ≠ "") :
    joinSpace (a :: l) ≠ "" := by
  cases l with
  | nil => simpa [joinSpace] using ha
  | cons b l2 =>
    intro h0
    have h1 : (a ++ " " ++ joinSpace (b :: l2)).data = [] := congrArg String.data h0
    rw [String.data_append, String.data_append] at h1
    simp at h1

/-- C4: over every trimmed title (every title reaching the
decomposition was produced by `textContent()?.trim()`, so titles are
trimmed), the code's split-and-assign agrees with the claim's
positional description over the whitespace-delimited tokens: a
four-digit first token becomes the year with make/model/trim assigned
positionally (null when absent), any other first token yields all four
null; the claim's two examples hold concretely. -/
theorem decomposeTitle_spec (t : String) (h : noEdgeSpaceB t.data = true) :
    decomposeTitle t = claimDecompose t ∧
    decomposeTitle "2021 Honda Civic EX-L" =
      (some "2021", some "Honda", some "Civic", some "EX-L") ∧
    decomposeTitle "Great Deal SUV" = (none, none, none, none) := by
  refine ⟨?_, by decide, by decide⟩
  by_cases hne : t = ""
  · subst hne
    decide
  · have hparts := splitWs_ne_empty_of_trimmed t h hne
    unfold decomposeTitle claimDecompose specTokens
    have hfil : (splitWs t).filter (fun s => s ≠ "") = splitWs t :=
      List.filter_eq_self.mpr (fun a ha => by simpa using hparts a ha)
    rw [hfil]
    cases hp : splitWs t with
    | nil => rfl
    | cons p0 rest =>
      have hrest : ∀ x ∈ rest, x ≠ "" := fun x hx =>
        hparts x (by rw [hp]; exact List.mem_cons_of_mem p0 hx)
      simp only [decomposeParts, claimDecomposeParts]
      by_cases hy : isYearTok p0 = true
      · rw [if_pos hy, if_pos hy]
        have hmake : orNull (rest.get? 0) = rest.get? 0 := by
          cases hg : rest.get? 0 with
          | none => rfl
          | some s =>
            have hs : s ≠ "" := hrest s (List.get?_mem hg)
            simp [orNull, hs]
        have hmodel : orNull (rest.get? 1) = rest.get? 1 := by
          cases hg : rest.get? 1 with
          | none => rfl
          | some s =>
            have hs : s ≠ "" := hrest s (List.get?_mem hg)
            simp [orNull, hs]
        have htrim : orNull (some (joinSpace (rest.drop 2))) =
            (if rest.drop 2 = [] then none else some (joinSpace (rest.drop 2))) := by
          cases hdrop : rest.drop 2 with
          | nil => simp [orNull, joinSpace]
          | cons a l2 =>
            have ha : a ≠ "" := hrest a ((List.drop_subset 2 rest)
              (by rw [hdrop]; exact List.mem_cons_self a l2))
            have hj := joinSpace_ne_empty a l2 ha
            simp [orNull, hj]
        rw [hmake, hmodel, htrim]
      · rw [if_neg hy, if_neg hy]

/-- Witness for C4 at the claim's concrete title. -/
theorem decomposeTitle_spec_witness :
    decomposeTitle "2021 Honda Civic EX-L" = claimDecompose "2021 Honda Civic EX-L" :=
  (decomposeTitle_spec "2021 Honda Civic EX-L" (by decide)).1
